import Mathlib

/-!
Verification development for the AHK Script Builder (ahk_gui_generator.py).
The core under study: the Action data model, the comment-metadata codec
(`Action.to_comment` and the `;ACTION:` line parser inside
`MainWindow.load_file`), the script-line generator (`Action.to_ahk_lines`),
the JSON project loader, and the `.ahk` exporter (`MainWindow.export_ahk`).

Python string primitives used by the source (str.strip, str.split on one
character, str.split with maxsplit 1, int(), str() of an int, str.replace,
`in` tests) are modelled over `List Char`; the filesystem-existence test
`os.path.exists` is an injected boolean predicate.  ASCII semantics only:
CPython's int() additionally accepts non-ASCII unicode digits, which no
input in this development exercises.
-/

namespace AhkGen

/-- The characters CPython's str.strip() removes (everything satisfying
str.isspace(): the ASCII whitespace and separators 09-0d, 1c-1f, 20, then
85, a0, 1680, 2000-200a, 2028, 2029, 202f, 205f, 3000). -/
def pySpaceChars : List Char :=
  ['\x09', '\x0a', '\x0b', '\x0c', '\x0d', '\x1c', '\x1d', '\x1e', '\x1f', '\x20',
   '\x85', '\xa0', '\u1680', '\u2000', '\u2001', '\u2002', '\u2003', '\u2004',
   '\u2005', '\u2006', '\u2007', '\u2008', '\u2009', '\u200a', '\u2028',
   '\u2029', '\u202f', '\u205f', '\u3000']

/-- Python str.strip() whitespace test (str.isspace() on one character). -/
def isPySpace (c : Char) : Bool :=
  decide (c ∈ pySpaceChars)

/-- Python s.strip(): drop leading and trailing whitespace. -/
def pyStripL (l : List Char) : List Char :=
  ((l.dropWhile isPySpace).reverse.dropWhile isPySpace).reverse

def pyStrip (s : String) : String := ⟨pyStripL s.data⟩

/-- Python s.split(sep) for a single-character separator: `"".split(sep)`
is `[""]`, adjacent separators give empty pieces. -/
def splitCharList (sep : Char) : List Char → List (List Char)
  | [] => [[]]
  | c :: cs =>
    if c = sep then [] :: splitCharList sep cs
    else
      match splitCharList sep cs with
      | [] => [[c]]
      | t :: ts => (c :: t) :: ts

/-- Python `p.split('=', 1)` when `'=' in p` (the loader's guard): the piece
before the first '=' and everything after it; none when no '=' occurs. -/
def splitEq : List Char → Option (List Char × List Char)
  | [] => none
  | c :: cs =>
    if c = '=' then some ([], cs)
    else (splitEq cs).map (fun kv => (c :: kv.1, kv.2))

/-- Python dict built by repeated assignment `kv[k] = v` over an association
list, looked up with get: the LAST binding of a key wins. -/
def kvGet : List (List Char × List Char) → List Char → Option (List Char)
  | [], _ => none
  | p :: rest, k =>
    match kvGet rest k with
    | some v => some v
    | none => if p.1 = k then some p.2 else none

def digitVal (c : Char) : Nat := c.toNat - 48

/-- Digit tail of CPython int(): ASCII digits with single underscores allowed
only between digits (no trailing or doubled underscore); the Bool flag
records that the previous character was an underscore. -/
def pyDigits : List Char → Nat → Bool → Option Nat
  | [], acc, afterUnd => if afterUnd then none else some acc
  | c :: rest, acc, afterUnd =>
    if c = '_' then (if afterUnd then none else pyDigits rest acc true)
    else if c.isDigit then pyDigits rest (acc * 10 + digitVal c) false
    else none

/-- Unsigned body of CPython int(): at least one digit first. -/
def pyIntBody (l : List Char) : Option Nat :=
  match l with
  | [] => none
  | c :: rest => if c.isDigit then pyDigits rest (digitVal c) false else none

/-- CPython int(str): surrounding whitespace stripped, optional single sign,
then digits (ASCII, with underscore separators); none models ValueError. -/
def pyIntL (l : List Char) : Option Int :=
  match pyStripL l with
  | [] => none
  | c :: rest =>
    if c = '+' then (pyIntBody rest).map Int.ofNat
    else if c = '-' then (pyIntBody rest).map (fun n => -(Int.ofNat n))
    else (pyIntBody (c :: rest)).map Int.ofNat

def pyInt (s : String) : Option Int := pyIntL s.data

def dChar (d : Nat) : Char := Char.ofNat (48 + d)

/-- Decimal digits, least significant first, with structural fuel (the
fuel exceeds the digit count, see natDigitsRev). -/
def natDigitsRevAux : Nat → Nat → List Char
  | 0, _ => []
  | fuel + 1, n =>
    if n < 10 then [dChar n] else dChar (n % 10) :: natDigitsRevAux fuel (n / 10)

/-- Decimal digits of a Nat, least significant first; natDigitsRev_eq
below restates the defining recurrence. -/
def natDigitsRev (n : Nat) : List Char := natDigitsRevAux (n + 1) n

def natStrL (n : Nat) : List Char := (natDigitsRev n).reverse

/-- CPython str(int): '-' sign for negatives, plain decimal digits otherwise
(this is what an f-string interpolation of an int field produces). -/
def pyIntStrL (i : Int) : List Char :=
  if i < 0 then '-' :: natStrL (-i).toNat else natStrL i.toNat

def pyIntStr (i : Int) : String := ⟨pyIntStrL i⟩

/-- Python s.replace(';', ',') — single-character replacement is a map. -/
def replaceSemiL (l : List Char) : List Char :=
  l.map (fun c => if c = ';' then ',' else c)

def replaceSemi (s : String) : String := ⟨replaceSemiL s.data⟩

/-- ActionType(str, Enum) of the source: the closed five-kind enumeration. -/
inductive ActionType where
  | CLICK
  | SLEEP
  | RUN
  | KEYPRESS
  | WAITWINDOW
deriving DecidableEq, Repr

/-- The enum member's string value. -/
def ActionType.value : ActionType → String
  | .CLICK => "Click"
  | .SLEEP => "Sleep"
  | .RUN => "Run"
  | .KEYPRESS => "KeyPress"
  | .WAITWINDOW => "WaitWindow"

/-- The Action dataclass: type is required, every other field defaulted
(x = y = ms = 0, command = "", mode = "Normal", params = ""). -/
structure Action where
  type : ActionType
  name : String
  x : Int := 0
  y : Int := 0
  ms : Int := 0
  command : String := ""
  mode : String := "Normal"
  params : String := ""
deriving DecidableEq, Repr

/-- Action.to_comment of the source: the structured `;ACTION:` metadata line.
Only params is escaped (';' -> ','); the final unknown-kind return of the
Python method is unreachable over the closed enumeration. -/
def Action.to_comment (a : Action) : String :=
  match a.type with
  | .CLICK =>
    ";ACTION:Click;Name=" ++ a.name ++ ";X=" ++ pyIntStr a.x ++ ";Y=" ++ pyIntStr a.y
  | .SLEEP =>
    ";ACTION:Sleep;Name=" ++ a.name ++ ";MS=" ++ pyIntStr a.ms
  | .RUN =>
    ";ACTION:Run;Name=" ++ a.name ++ ";Cmd=" ++ a.command ++ ";Params=" ++
      replaceSemi a.params ++ ";Mode=" ++ a.mode
  | .KEYPRESS =>
    ";ACTION:KeyPress;Name=" ++ a.name ++ ";Key=" ++ a.command
  | .WAITWINDOW =>
    ";ACTION:WaitWindow;Name=" ++ a.name ++ ";Title=" ++ a.command

/-- mode_map.get(mode, "") of Action.to_ahk_lines. -/
def mode_map (m : String) : String :=
  if m = "Normal" then ""
  else if m = "Minimized" then "Min"
  else if m = "Maximized" then "Max"
  else if m = "Hidden" then "Hide"
  else ""

/-- `param_text = f" {params}" if params else ""`. -/
def paramText (p : String) : String := if p = "" then "" else " " ++ p

/-- Python `ch in s` for a single character. -/
def containsChar (s : String) (ch : Char) : Bool := s.data.contains ch

/-- The Run command token: quoted when `os.path.exists(cmd) and (" " in cmd
or '"' not in cmd)`, verbatim otherwise; `ex` is the injected existence
predicate standing for os.path.exists. -/
def cmdWrapped (ex : String → Bool) (c : String) : String :=
  if ex c && (containsChar c ' ' || !(containsChar c '"')) then "\"" ++ c ++ "\"" else c

/-- Action.to_ahk_lines of the source, with os.path.exists injected as `ex`. -/
def Action.to_ahk_lines (ex : String → Bool) (a : Action) : List String :=
  match a.type with
  | .CLICK => ["MouseMove, " ++ pyIntStr a.x ++ ", " ++ pyIntStr a.y, "Click"]
  | .SLEEP => ["Sleep, " ++ pyIntStr a.ms]
  | .RUN =>
    if mode_map a.mode = "" then
      ["Run, " ++ cmdWrapped ex a.command ++ paramText a.params]
    else
      ["Run, " ++ cmdWrapped ex a.command ++ paramText a.params ++ ", , " ++ mode_map a.mode]
  | .KEYPRESS => ["Send, " ++ a.command]
  | .WAITWINDOW => ["WinWait, " ++ a.command ++ ", , 10", "WinActivate, " ++ a.command]

/-- kv.get(key, default) for the string-valued fields of the line decoder. -/
def kvGetS (kv : List (List Char × List Char)) (k : String) (dflt : String) : String :=
  ⟨(kvGet kv k.data).getD dflt.data⟩

/-- int(kv.get(key, 0)) of the line decoder: the absent-key default is the
int 0, a present value is parsed with int() and may fail. -/
def kvGetI (kv : List (List Char × List Char)) (k : String) : Option Int :=
  match kvGet kv k.data with
  | none => some 0
  | some v => pyIntL v

/-- Dispatch on the kind token of a `;ACTION:` line (the if/elif chain of
MainWindow.load_file); none models both the `else: continue` for unknown
kinds and a caught int() ValueError. -/
def parseFields (typ : List Char) (kv : List (List Char × List Char)) : Option Action :=
  if typ = "Click".data then
    match kvGetI kv "X", kvGetI kv "Y" with
    | some x, some y => some { type := .CLICK, name := kvGetS kv "Name" "Click", x := x, y := y }
    | _, _ => none
  else if typ = "Sleep".data then
    match kvGetI kv "MS" with
    | some m => some { type := .SLEEP, name := kvGetS kv "Name" "Sleep", ms := m }
    | none => none
  else if typ = "Run".data then
    some { type := .RUN, name := kvGetS kv "Name" "Run", command := kvGetS kv "Cmd" "",
           params := kvGetS kv "Params" "", mode := kvGetS kv "Mode" "Normal" }
  else if typ = "KeyPress".data then
    some { type := .KEYPRESS, name := kvGetS kv "Name" "KeyPress", command := kvGetS kv "Key" "" }
  else if typ = "WaitWindow".data then
    some { type := .WAITWINDOW, name := kvGetS kv "Name" "WaitWindow",
           command := kvGetS kv "Title" "" }
  else none

/-- `rest = line[len(';ACTION:'):]` processing: split on ';', first piece is
the kind token, the rest become the key/value dict. -/
def parseBody (body : List Char) : Option Action :=
  match splitCharList ';' body with
  | [] => none
  | typ :: rest => parseFields typ (rest.filterMap splitEq)

/-- One iteration of the `.ahk` loader loop of MainWindow.load_file: strip
the line, require the `;ACTION:` marker, decode the remainder. none stands
for a skipped line (no marker, unknown kind, or caught exception). -/
def parseActionLineL (line : List Char) : Option Action :=
  if (pyStripL line).take (";ACTION:".data.length) = ";ACTION:".data then
    parseBody ((pyStripL line).drop (";ACTION:".data.length))
  else none

def parseActionLine (s : String) : Option Action := parseActionLineL s.data

/-- The `.ahk` branch of MainWindow.load_file over a list of lines: each
line is decoded independently, failures are skipped. -/
def importLines (ls : List String) : List Action := ls.filterMap parseActionLine

/-- The `.ahk` branch over the whole file text: iterate the text's lines
(each line is stripped by the decoder, so keeping or cutting the newline
terminator is indifferent). -/
def importScript (s : String) : List Action :=
  (splitCharList '\n' s.data).filterMap parseActionLineL

/-- One persisted action record of the JSON project document, every field
optional on read (dict.get with default); `type?` is the discriminator
accessed as ad['type']. -/
structure ActionRecord where
  type? : Option String := none
  name? : Option String := none
  x? : Option Int := none
  y? : Option Int := none
  ms? : Option Int := none
  command? : Option String := none
  mode? : Option String := none
  params? : Option String := none
deriving DecidableEq, Repr

/-- ActionType(s): the enum constructor, none models its ValueError. -/
def parseActionType (s : String) : Option ActionType :=
  if s = "Click" then some .CLICK
  else if s = "Sleep" then some .SLEEP
  else if s = "Run" then some .RUN
  else if s = "KeyPress" then some .KEYPRESS
  else if s = "WaitWindow" then some .WAITWINDOW
  else none

/-- Building one Action from a persisted record (the Action(...) call in the
JSON branch of load_file): ad['type'] raises KeyError when absent,
ActionType(...) raises ValueError on an unknown value; every other field is
read with dict.get and a default. -/
def parseRecord (r : ActionRecord) : Except String Action :=
  match r.type? with
  | none => .error "KeyError"
  | some t =>
    match parseActionType t with
    | none => .error "ValueError"
    | some ty =>
      .ok { type := ty, name := r.name?.getD (r.type?.getD "Action"),
            x := r.x?.getD 0, y := r.y?.getD 0, ms := r.ms?.getD 0,
            command := r.command?.getD "", mode := r.mode?.getD "Normal",
            params := r.params?.getD "" }

/-- The caller-visible mutable state of MainWindow touched by load_file:
the application-name field, the hotkey field, the actions list. -/
structure GuiState where
  appName : String
  hotkey : String
  actions : List Action
deriving DecidableEq, Repr

/-- The persisted JSON project document (top level). -/
structure ProjectDoc where
  app_name? : Option String := none
  hotkey? : Option String := none
  actionRecords : List ActionRecord := []
deriving Repr

/-- The record loop of the JSON branch: records are appended one by one to
the already-cleared list; the first raising record stops the loop with the
state as mutated so far (the Python exception propagates out of load_file). -/
def loadRecords : GuiState → List ActionRecord → GuiState × Option String
  | st, [] => (st, none)
  | st, r :: rs =>
    match parseRecord r with
    | .ok a => loadRecords { st with actions := st.actions ++ [a] } rs
    | .error e => (st, some e)

/-- The JSON branch of MainWindow.load_file as a state transformation: the
name and hotkey widgets are set and the actions list cleared BEFORE the
record loop runs, so a failing record leaves the state partially mutated. -/
def loadJson (st : GuiState) (d : ProjectDoc) : GuiState × Option String :=
  loadRecords
    { st with appName := d.app_name?.getD "MyScript",
              hotkey := d.hotkey?.getD "^!z", actions := [] }
    d.actionRecords

def indentLine (s : String) : String := "    " ++ s

/-- MainWindow.export_ahk: the fixed header, the hotkey line (stripped
hotkey text, falling back to "F9" when empty), then per action the comment
line followed by the four-space-indented command lines, then `return`. -/
def exportLines (ex : String → Bool) (appName hotkeyText : String)
    (actions : List Action) : List String :=
  let hotkey := if pyStrip hotkeyText = "" then "F9" else pyStrip hotkeyText
  ["; Generated by AHK Script Builder - " ++ appName,
   "; Keep the ACTION comments if you want to reload this script into the builder.",
   "CoordMode, Mouse, Screen",
   "SetTitleMatchMode, 2",
   "",
   "; Hotkey to run the sequence: " ++ hotkey,
   hotkey ++ "::"]
  ++ (actions.map (fun a => a.to_comment :: (a.to_ahk_lines ex).map indentLine)).flatten
  ++ ["return"]

/-- The exported file's content: the lines joined with newlines. -/
def exportContent (ex : String → Bool) (appName hotkeyText : String)
    (actions : List Action) : String :=
  String.intercalate "\n" (exportLines ex appName hotkeyText actions)

end AhkGen

namespace AhkGen

/-! ## Generic lemmas about the modelled Python string primitives -/

theorem dropWhile_eq_self_of_head {α : Type} (p : α → Bool) (l : List α)
    (h : ∀ c, l.head? = some c → p c = false) : l.dropWhile p = l := by
  cases l with
  | nil => rfl
  | cons a t => simp [List.dropWhile_cons, h a rfl]

theorem pyStripL_eq_self (l : List Char)
    (h1 : ∀ c, l.head? = some c → isPySpace c = false)
    (h2 : ∀ c, l.getLast? = some c → isPySpace c = false) :
    pyStripL l = l := by
  unfold pyStripL
  rw [dropWhile_eq_self_of_head _ _ h1]
  rw [dropWhile_eq_self_of_head _ _ (fun c hc => h2 c (by rwa [List.head?_reverse] at hc))]
  exact List.reverse_reverse l

theorem mem_of_mem_pyStripL (l : List Char) (c : Char) (h : c ∈ pyStripL l) : c ∈ l := by
  unfold pyStripL at h
  rw [List.mem_reverse] at h
  have h2 := (List.dropWhile_sublist (l := (l.dropWhile isPySpace).reverse)
    (p := isPySpace)).mem h
  rw [List.mem_reverse] at h2
  exact (List.dropWhile_sublist (l := l) (p := isPySpace)).mem h2

theorem splitCharList_not_mem (sep : Char) (l : List Char) (h : sep ∉ l) :
    splitCharList sep l = [l] := by
  induction l with
  | nil => rfl
  | cons c cs ih =>
    have hc : ¬ c = sep := fun e => h (e ▸ List.mem_cons_self c cs)
    have hcs : sep ∉ cs := fun m => h (List.mem_cons_of_mem _ m)
    simp only [splitCharList, if_neg hc, ih hcs]

theorem splitCharList_append (sep : Char) (l1 l2 : List Char) (h : sep ∉ l1) :
    splitCharList sep (l1 ++ sep :: l2) = l1 :: splitCharList sep l2 := by
  induction l1 with
  | nil => simp [splitCharList]
  | cons c cs ih =>
    have hc : ¬ c = sep := fun e => h (e ▸ List.mem_cons_self c cs)
    have hcs : sep ∉ cs := fun m => h (List.mem_cons_of_mem _ m)
    simp only [List.cons_append, splitCharList, List.append_eq, if_neg hc, ih hcs]

theorem mem_of_mem_splitCharList (sep : Char) (l : List Char) (p : List Char)
    (hp : p ∈ splitCharList sep l) (c : Char) (hc : c ∈ p) : c ∈ l := by
  induction l generalizing p with
  | nil =>
    simp only [splitCharList, List.mem_singleton] at hp
    subst hp
    simp at hc
  | cons a t ih =>
    by_cases ha : a = sep
    · rw [splitCharList, if_pos ha] at hp
      rcases List.mem_cons.mp hp with h1 | h2
      · subst h1; simp at hc
      · exact List.mem_cons_of_mem _ (ih p h2 hc)
    · rw [splitCharList, if_neg ha] at hp
      cases e : splitCharList sep t with
      | nil => rw [e] at hp; simp at hp; subst hp; simp at hc; simp [hc]
      | cons q qs =>
        rw [e] at hp
        rcases List.mem_cons.mp hp with h1 | h2
        · subst h1
          rcases List.mem_cons.mp hc with h3 | h4
          · exact h3 ▸ List.mem_cons_self a t
          · exact List.mem_cons_of_mem _ (ih q (e ▸ List.mem_cons_self q qs) h4)
        · exact List.mem_cons_of_mem _ (ih p (e ▸ List.mem_cons_of_mem _ h2) hc)

theorem splitEq_append (k v : List Char) (h : '=' ∉ k) :
    splitEq (k ++ '=' :: v) = some (k, v) := by
  induction k with
  | nil => simp [splitEq]
  | cons c cs ih =>
    have hc : ¬ c = '=' := fun e => h (e ▸ List.mem_cons_self c cs)
    have hcs : '=' ∉ cs := fun m => h (List.mem_cons_of_mem _ m)
    simp [splitEq, if_neg hc, ih hcs]

theorem splitEq_mem (p : List Char) (kv : List Char × List Char)
    (h : splitEq p = some kv) : ∀ c ∈ kv.2, c ∈ p := by
  induction p generalizing kv with
  | nil => simp [splitEq] at h
  | cons a t ih =>
    by_cases ha : a = '='
    · rw [splitEq, if_pos ha] at h
      have h2 := Option.some.inj h
      subst h2
      intro c hc
      exact List.mem_cons_of_mem _ hc
    · rw [splitEq, if_neg ha] at h
      cases e : splitEq t with
      | none => rw [e] at h; simp at h
      | some kv' =>
        rw [e] at h
        simp only [Option.map_some'] at h
        have h2 := Option.some.inj h
        subst h2
        intro c hc
        exact List.mem_cons_of_mem _ (ih kv' e c hc)

end AhkGen

namespace AhkGen

/-! ## Decimal rendering and int() parsing round-trip -/

theorem mem_of_getLast?_eq {l : List Char} {a : Char} (h : l.getLast? = some a) : a ∈ l := by
  cases l with
  | nil => simp at h
  | cons b t =>
    rw [List.getLast?_eq_getLast_of_ne_nil (by simp)] at h
    have := List.getLast_mem (l := b :: t) (by simp)
    rwa [Option.some.inj h] at this

theorem dChar_isDigit (d : Nat) (h : d < 10) : (dChar d).isDigit = true := by
  interval_cases d <;> decide

theorem dChar_digitVal (d : Nat) (h : d < 10) : digitVal (dChar d) = d := by
  interval_cases d <;> decide

theorem isDigit_ne_of (c k : Char) (hk : k.isDigit = false) (h : c.isDigit = true) :
    ¬ c = k := by
  intro e
  subst e
  simp [h] at hk

theorem isPySpace_mem (c : Char) (h : isPySpace c = true) : c ∈ pySpaceChars := by
  unfold isPySpace at h
  exact of_decide_eq_true h

theorem isDigit_not_space (c : Char) (h : c.isDigit = true) : isPySpace c = false := by
  by_contra hs
  have hmem := isPySpace_mem c (Bool.of_not_eq_false hs)
  fin_cases hmem <;> simp at h

theorem natDigitsRevAux_succ (fuel n : Nat) :
    natDigitsRevAux (fuel + 1) n =
      if n < 10 then [dChar n] else dChar (n % 10) :: natDigitsRevAux fuel (n / 10) := rfl

theorem natDigitsRevAux_congr (f1 : Nat) : ∀ (f2 n : Nat), n < f1 → n < f2 →
    natDigitsRevAux f1 n = natDigitsRevAux f2 n := by
  induction f1 with
  | zero => intro f2 n h1 _; omega
  | succ f ih =>
    intro f2 n h1 h2
    cases f2 with
    | zero => omega
    | succ f2p =>
      rw [natDigitsRevAux_succ, natDigitsRevAux_succ]
      by_cases hn : n < 10
      · rw [if_pos hn, if_pos hn]
      · rw [if_neg hn, if_neg hn, ih f2p (n / 10) (by omega) (by omega)]

theorem natDigitsRev_eq (n : Nat) :
    natDigitsRev n = if n < 10 then [dChar n] else dChar (n % 10) :: natDigitsRev (n / 10) := by
  show natDigitsRevAux (n + 1) n = _
  rw [natDigitsRevAux_succ]
  by_cases hn : n < 10
  · rw [if_pos hn, if_pos hn]
  · rw [if_neg hn, if_neg hn]
    show _ = dChar (n % 10) :: natDigitsRevAux (n / 10 + 1) (n / 10)
    rw [natDigitsRevAux_congr n (n / 10 + 1) (n / 10) (by omega) (by omega)]

theorem natDigitsRev_all_digits (n : Nat) : ∀ c ∈ natDigitsRev n, c.isDigit = true := by
  induction n using Nat.strong_induction_on with
  | _ n ih =>
    rw [natDigitsRev_eq]
    split
    · intro c hc
      simp only [List.mem_singleton] at hc
      subst hc
      exact dChar_isDigit n (by omega)
    · intro c hc
      rcases List.mem_cons.mp hc with h1 | h2
      · subst h1; exact dChar_isDigit _ (Nat.mod_lt n (by omega))
      · exact ih (n / 10) (by omega) c h2

theorem natDigitsRev_ne_nil (n : Nat) : natDigitsRev n ≠ [] := by
  rw [natDigitsRev_eq]
  split <;> simp

theorem natStrL_all_digits (n : Nat) : ∀ c ∈ natStrL n, c.isDigit = true :=
  fun c hc => natDigitsRev_all_digits n c (List.mem_reverse.mp hc)

theorem natStrL_ne_nil (n : Nat) : natStrL n ≠ [] := by
  unfold natStrL
  simpa using natDigitsRev_ne_nil n

/-- Accumulator form of the decimal value of a digit string. -/
def valAcc (l : List Char) (acc : Nat) : Nat :=
  l.foldl (fun a c => a * 10 + digitVal c) acc

theorem valAcc_append (l1 l2 : List Char) (acc : Nat) :
    valAcc (l1 ++ l2) acc = valAcc l2 (valAcc l1 acc) :=
  List.foldl_append _ _ _ _

theorem natStrL_step (n : Nat) (h : ¬ n < 10) :
    natStrL n = natStrL (n / 10) ++ [dChar (n % 10)] := by
  unfold natStrL
  rw [natDigitsRev_eq, if_neg h]
  simp

theorem natStrL_val (n : Nat) :
    ∀ acc, valAcc (natStrL n) acc = acc * 10 ^ (natStrL n).length + n := by
  induction n using Nat.strong_induction_on with
  | _ n ih =>
    intro acc
    by_cases h : n < 10
    · have e : natStrL n = [dChar n] := by
        unfold natStrL
        rw [natDigitsRev_eq, if_pos h]
        rfl
      rw [e]
      simp [valAcc, dChar_digitVal n h]
    · rw [natStrL_step n h, valAcc_append, ih (n / 10) (by omega) acc]
      simp only [valAcc, List.foldl_cons, List.foldl_nil, natStrL_step n h,
        List.length_append, List.length_singleton]
      rw [dChar_digitVal _ (Nat.mod_lt n (by omega))]
      ring_nf
      omega

theorem pyDigits_all_digits (l : List Char) (acc : Nat)
    (h : ∀ c ∈ l, c.isDigit = true) :
    pyDigits l acc false = some (valAcc l acc) := by
  induction l generalizing acc with
  | nil => rfl
  | cons c cs ih =>
    have hc := h c (List.mem_cons_self c cs)
    have hcu : ¬ c = '_' := isDigit_ne_of c '_' (by decide) hc
    have e : pyDigits (c :: cs) acc false = pyDigits cs (acc * 10 + digitVal c) false := by
      simp only [pyDigits]
      rw [if_neg hcu, if_pos hc]
    rw [e, ih _ (fun x hx => h x (List.mem_cons_of_mem _ hx))]
    rfl

theorem pyIntBody_natStrL (n : Nat) : pyIntBody (natStrL n) = some n := by
  cases e : natStrL n with
  | nil => exact absurd e (natStrL_ne_nil n)
  | cons c cs =>
    have hall : ∀ x ∈ natStrL n, x.isDigit = true := natStrL_all_digits n
    have hc : c.isDigit = true := hall c (e ▸ List.mem_cons_self c cs)
    have hcs : ∀ x ∈ cs, x.isDigit = true :=
      fun x hx => hall x (e ▸ List.mem_cons_of_mem _ hx)
    have e3 : pyIntBody (c :: cs) =
        if c.isDigit = true then pyDigits cs (digitVal c) false else none := rfl
    rw [e3, if_pos hc, pyDigits_all_digits cs (digitVal c) hcs]
    have h2 : valAcc cs (digitVal c) = valAcc (natStrL n) 0 := by
      rw [e]
      simp [valAcc]
    rw [h2, natStrL_val n 0]
    simp

theorem pyIntStrL_head_not_space (i : Int) :
    ∀ c, (pyIntStrL i).head? = some c → isPySpace c = false := by
  intro c hc
  unfold pyIntStrL at hc
  by_cases hi : i < 0
  · rw [if_pos hi] at hc
    simp only [List.head?_cons] at hc
    cases Option.some.inj hc
    decide
  · rw [if_neg hi] at hc
    cases e : natStrL i.toNat with
    | nil => exact absurd e (natStrL_ne_nil _)
    | cons b t =>
      rw [e] at hc
      simp only [List.head?_cons, Option.some.injEq] at hc
      subst hc
      exact isDigit_not_space _ (natStrL_all_digits _ b (e ▸ List.mem_cons_self b t))

theorem pyIntStrL_last_not_space (i : Int) :
    ∀ c, (pyIntStrL i).getLast? = some c → isPySpace c = false := by
  intro c hc
  unfold pyIntStrL at hc
  by_cases hi : i < 0
  · rw [if_pos hi] at hc
    have e2 : ('-' :: natStrL (-i).toNat) = ['-'] ++ natStrL (-i).toNat := rfl
    rw [e2, List.getLast?_append] at hc
    cases e : (natStrL (-i).toNat).getLast? with
    | none => exact absurd (List.getLast?_eq_none_iff.mp e) (natStrL_ne_nil _)
    | some d =>
      rw [e] at hc
      simp only [Option.or_some, Option.some.injEq] at hc
      subst hc
      exact isDigit_not_space _ (natStrL_all_digits _ d (mem_of_getLast?_eq e))
  · rw [if_neg hi] at hc
    exact isDigit_not_space _ (natStrL_all_digits _ c (mem_of_getLast?_eq hc))

theorem pyIntStrL_ne_nil (i : Int) : pyIntStrL i ≠ [] := by
  unfold pyIntStrL
  split
  · simp
  · exact natStrL_ne_nil _

theorem pyStripL_pyIntStrL (i : Int) : pyStripL (pyIntStrL i) = pyIntStrL i :=
  pyStripL_eq_self _ (pyIntStrL_head_not_space i) (pyIntStrL_last_not_space i)

theorem pyIntL_pyIntStrL (i : Int) : pyIntL (pyIntStrL i) = some i := by
  by_cases hi : i < 0
  · have e : pyIntStrL i = '-' :: natStrL (-i).toNat := by
      unfold pyIntStrL
      rw [if_pos hi]
    have e3 : pyIntL (pyIntStrL i) =
        (pyIntBody (natStrL (-i).toNat)).map (fun n => -(Int.ofNat n)) := by
      unfold pyIntL
      rw [pyStripL_pyIntStrL, e]
      rfl
    rw [e3, pyIntBody_natStrL]
    simp
    omega
  · have e : pyIntStrL i = natStrL i.toNat := by
      unfold pyIntStrL
      rw [if_neg hi]
    cases e2 : natStrL i.toNat with
    | nil => exact absurd e2 (natStrL_ne_nil _)
    | cons c cs =>
      have hc : c.isDigit = true := natStrL_all_digits _ c (e2 ▸ List.mem_cons_self c cs)
      have hplus : ¬ c = '+' := isDigit_ne_of c '+' (by decide) hc
      have hminus : ¬ c = '-' := isDigit_ne_of c '-' (by decide) hc
      have e3 : pyIntL (pyIntStrL i) =
          if c = '+' then (pyIntBody cs).map Int.ofNat
          else if c = '-' then (pyIntBody cs).map (fun n => -(Int.ofNat n))
          else (pyIntBody (c :: cs)).map Int.ofNat := by
        unfold pyIntL
        rw [pyStripL_pyIntStrL, e, e2]
      rw [e3, if_neg hplus, if_neg hminus, ← e2, pyIntBody_natStrL]
      simp
      omega

end AhkGen

namespace AhkGen

/-! ## Decoding an encoded metadata line -/

theorem not_mem_append_chars {c : Char} {l1 l2 : List Char} (h1 : c ∉ l1) (h2 : c ∉ l2) :
    c ∉ l1 ++ l2 := by
  intro h
  rcases List.mem_append.mp h with h | h
  exacts [h1 h, h2 h]

theorem not_mem_cons_chars {c d : Char} {l : List Char} (h1 : ¬ c = d) (h2 : c ∉ l) :
    c ∉ d :: l := by
  intro h
  rcases List.mem_cons.mp h with h | h
  exacts [h1 h, h2 h]

theorem pyIntStrL_chars (i : Int) : ∀ c ∈ pyIntStrL i, c.isDigit = true ∨ c = '-' := by
  intro c hc
  unfold pyIntStrL at hc
  by_cases hi : i < 0
  · rw [if_pos hi] at hc
    rcases List.mem_cons.mp hc with h | h
    · exact Or.inr h
    · exact Or.inl (natStrL_all_digits _ c h)
  · rw [if_neg hi] at hc
    exact Or.inl (natStrL_all_digits _ c hc)

theorem semi_not_mem_pyIntStrL (i : Int) : ';' ∉ pyIntStrL i := by
  intro h
  rcases pyIntStrL_chars i ';' h with hd | he
  · exact absurd hd (by decide)
  · exact absurd he (by decide)

/-- The trailing character, when there is one, is not Python whitespace. -/
def lastNotSpace (l : List Char) : Prop :=
  ∀ c, l.getLast? = some c → isPySpace c = false

theorem lastNotSpace_of_getLast? (l : List Char) (d : Char) (e : l.getLast? = some d)
    (hd : isPySpace d = false) : lastNotSpace l := by
  intro c hc
  rw [e] at hc
  cases Option.some.inj hc
  exact hd

theorem lastNotSpace_append (A B : List Char) (hA : lastNotSpace A) (hB : lastNotSpace B) :
    lastNotSpace (A ++ B) := by
  intro c hc
  rw [List.getLast?_append] at hc
  cases e : B.getLast? with
  | none => rw [e] at hc; simp only [Option.or] at hc; exact hA c hc
  | some d =>
    rw [e] at hc
    simp only [Option.or] at hc
    have h3 := Option.some.inj hc
    subst h3
    exact hB d e

theorem lastNotSpace_cons (d : Char) (l : List Char) (hd : isPySpace d = false)
    (hl : lastNotSpace l) : lastNotSpace (d :: l) := by
  intro c hc
  cases l with
  | nil =>
    simp only [List.getLast?_singleton] at hc
    cases Option.some.inj hc
    exact hd
  | cons z t =>
    rw [List.getLast?_cons_cons] at hc
    exact hl c hc

theorem lastNotSpace_pyIntStrL (i : Int) : lastNotSpace (pyIntStrL i) :=
  pyIntStrL_last_not_space i

/-- Reduction of the decoder on a line that carries the marker and needs no
stripping. -/
theorem parseActionLineL_marker (body : List Char)
    (hstrip : pyStripL (";ACTION:".data ++ body) = ";ACTION:".data ++ body) :
    parseActionLineL (";ACTION:".data ++ body) = parseBody body := by
  unfold parseActionLineL
  rw [hstrip, List.take_left, List.drop_left, if_pos rfl]

theorem parseBody_cons (body typ : List Char) (rest : List (List Char))
    (h : splitCharList ';' body = typ :: rest) :
    parseBody body = parseFields typ (rest.filterMap splitEq) := by
  unfold parseBody
  rw [h]

/-- A marker-headed line with a space-free final character strips to itself. -/
theorem pyStripL_marker (body : List Char) (h2 : lastNotSpace (";ACTION:".data ++ body)) :
    pyStripL (";ACTION:".data ++ body) = ";ACTION:".data ++ body := by
  apply pyStripL_eq_self
  · intro c hc
    have e : ((";ACTION:".data ++ body)).head? = some ';' := rfl
    rw [e] at hc
    cases Option.some.inj hc
    decide
  · exact h2

end AhkGen

namespace AhkGen

/-- Boolean form of "the string does not end in Python whitespace". -/
def noTrailSpaceB (l : List Char) : Bool :=
  match l.getLast? with
  | none => true
  | some c => !isPySpace c

theorem lastNotSpace_of_B (l : List Char) (h : noTrailSpaceB l = true) : lastNotSpace l := by
  intro c hc
  unfold noTrailSpaceB at h
  rw [hc] at h
  simpa using h

theorem lastNotSpace_append_right (A B : List Char) (hBne : B ≠ [])
    (hB : lastNotSpace B) : lastNotSpace (A ++ B) := by
  intro c hc
  rw [List.getLast?_append] at hc
  cases e : B.getLast? with
  | none => exact absurd (List.getLast?_eq_none_iff.mp e) hBne
  | some d =>
    rw [e] at hc
    simp only [Option.or] at hc
    have h3 := Option.some.inj hc
    subst h3
    exact hB d e

end AhkGen

namespace AhkGen

theorem parse_click_encoded (n : List Char) (x y : Int) (hn : ';' ∉ n) :
    parseActionLineL (";ACTION:Click;Name=".data ++ n ++ ";X=".data ++ pyIntStrL x ++
        ";Y=".data ++ pyIntStrL y) =
      some { type := .CLICK, name := ⟨n⟩, x := x, y := y } := by
  have lit1 : ";ACTION:Click;Name=".data =
      ";ACTION:".data ++ "Click".data ++ [';'] ++ "Name".data ++ ['='] := by decide
  have lit2 : ";X=".data = [';'] ++ "X".data ++ ['='] := by decide
  have lit3 : ";Y=".data = [';'] ++ "Y".data ++ ['='] := by decide
  have harg : ";ACTION:Click;Name=".data ++ n ++ ";X=".data ++ pyIntStrL x ++
      ";Y=".data ++ pyIntStrL y =
      ";ACTION:".data ++ ("Click".data ++ (';' :: ("Name".data ++ ('=' :: (n ++
        (';' :: ("X".data ++ ('=' :: (pyIntStrL x ++
        (';' :: ("Y".data ++ ('=' :: pyIntStrL y)))))))))))) := by
    rw [lit1, lit2, lit3]
    simp [List.append_assoc]
  rw [harg]
  have hlast : lastNotSpace ("Click".data ++ (';' :: ("Name".data ++ ('=' :: (n ++
      (';' :: ("X".data ++ ('=' :: (pyIntStrL x ++
      (';' :: ("Y".data ++ ('=' :: pyIntStrL y)))))))))))) := by
    apply lastNotSpace_append_right _ _ (by simp)
    apply lastNotSpace_cons _ _ (by decide)
    apply lastNotSpace_append_right _ _ (by simp)
    apply lastNotSpace_cons _ _ (by decide)
    apply lastNotSpace_append_right _ _ (by simp)
    apply lastNotSpace_cons _ _ (by decide)
    apply lastNotSpace_append_right _ _ (by simp)
    apply lastNotSpace_cons _ _ (by decide)
    apply lastNotSpace_append_right _ _ (by simp)
    apply lastNotSpace_cons _ _ (by decide)
    apply lastNotSpace_append_right _ _ (by simp)
    apply lastNotSpace_cons _ _ (by decide)
    exact lastNotSpace_pyIntStrL y
  rw [parseActionLineL_marker _ (pyStripL_marker _
    (lastNotSpace_append_right _ _ (by simp) hlast))]
  have hK1 : ';' ∉ "Name".data ++ ('=' :: n) :=
    not_mem_append_chars (by decide) (not_mem_cons_chars (by decide) hn)
  have hK2 : ';' ∉ "X".data ++ ('=' :: pyIntStrL x) :=
    not_mem_append_chars (by decide)
      (not_mem_cons_chars (by decide) (semi_not_mem_pyIntStrL x))
  have hK3 : ';' ∉ "Y".data ++ ('=' :: pyIntStrL y) :=
    not_mem_append_chars (by decide)
      (not_mem_cons_chars (by decide) (semi_not_mem_pyIntStrL y))
  have e1 : "Name".data ++ ('=' :: (n ++ (';' :: ("X".data ++ ('=' :: (pyIntStrL x ++
      (';' :: ("Y".data ++ ('=' :: pyIntStrL y))))))))) =
      ("Name".data ++ ('=' :: n)) ++ (';' :: ("X".data ++ ('=' :: (pyIntStrL x ++
      (';' :: ("Y".data ++ ('=' :: pyIntStrL y))))))) := by
    simp [List.append_assoc]
  have e2 : "X".data ++ ('=' :: (pyIntStrL x ++ (';' :: ("Y".data ++ ('=' :: pyIntStrL y))))) =
      ("X".data ++ ('=' :: pyIntStrL x)) ++ (';' :: ("Y".data ++ ('=' :: pyIntStrL y))) := by
    simp [List.append_assoc]
  have hsplit : splitCharList ';' ("Click".data ++ (';' :: ("Name".data ++ ('=' :: (n ++
      (';' :: ("X".data ++ ('=' :: (pyIntStrL x ++
      (';' :: ("Y".data ++ ('=' :: pyIntStrL y)))))))))))) =
      "Click".data :: (("Name".data ++ ('=' :: n)) ::
        (("X".data ++ ('=' :: pyIntStrL x)) :: [("Y".data ++ ('=' :: pyIntStrL y))])) := by
    rw [splitCharList_append _ _ _ (by decide), e1, splitCharList_append _ _ _ hK1,
      e2, splitCharList_append _ _ _ hK2, splitCharList_not_mem _ _ hK3]
  rw [parseBody_cons _ _ _ hsplit]
  have f1 : splitEq ("Name".data ++ ('=' :: n)) = some ("Name".data, n) :=
    splitEq_append _ _ (by decide)
  have f2 : splitEq ("X".data ++ ('=' :: pyIntStrL x)) = some ("X".data, pyIntStrL x) :=
    splitEq_append _ _ (by decide)
  have f3 : splitEq ("Y".data ++ ('=' :: pyIntStrL y)) = some ("Y".data, pyIntStrL y) :=
    splitEq_append _ _ (by decide)
  rw [List.filterMap_cons_some f1, List.filterMap_cons_some f2,
    List.filterMap_cons_some f3, List.filterMap_nil]
  have gi1 : kvGetI [("Name".data, n), ("X".data, pyIntStrL x), ("Y".data, pyIntStrL y)]
      "X" = some x := by
    unfold kvGetI
    have g1 : kvGet [("Name".data, n), ("X".data, pyIntStrL x), ("Y".data, pyIntStrL y)]
        "X".data = some (pyIntStrL x) := rfl
    rw [g1]
    exact pyIntL_pyIntStrL x
  have gi2 : kvGetI [("Name".data, n), ("X".data, pyIntStrL x), ("Y".data, pyIntStrL y)]
      "Y" = some y := by
    unfold kvGetI
    have g2 : kvGet [("Name".data, n), ("X".data, pyIntStrL x), ("Y".data, pyIntStrL y)]
        "Y".data = some (pyIntStrL y) := rfl
    rw [g2]
    exact pyIntL_pyIntStrL y
  unfold parseFields
  rw [if_pos rfl, gi1, gi2]
  rfl

end AhkGen

namespace AhkGen

theorem parse_sleep_encoded (n : List Char) (ms : Int) (hn : ';' ∉ n) :
    parseActionLineL (";ACTION:Sleep;Name=".data ++ n ++ ";MS=".data ++ pyIntStrL ms) =
      some { type := .SLEEP, name := ⟨n⟩, ms := ms } := by
  have lit1 : ";ACTION:Sleep;Name=".data =
      ";ACTION:".data ++ "Sleep".data ++ [';'] ++ "Name".data ++ ['='] := by decide
  have lit2 : ";MS=".data = [';'] ++ "MS".data ++ ['='] := by decide
  have harg : ";ACTION:Sleep;Name=".data ++ n ++ ";MS=".data ++ pyIntStrL ms =
      ";ACTION:".data ++ ("Sleep".data ++ (';' :: ("Name".data ++ ('=' :: (n ++
        (';' :: ("MS".data ++ ('=' :: pyIntStrL ms)))))))) := by
    rw [lit1, lit2]
    simp [List.append_assoc]
  rw [harg]
  have hlast : lastNotSpace ("Sleep".data ++ (';' :: ("Name".data ++ ('=' :: (n ++
      (';' :: ("MS".data ++ ('=' :: pyIntStrL ms)))))))) := by
    apply lastNotSpace_append_right _ _ (by simp)
    apply lastNotSpace_cons _ _ (by decide)
    apply lastNotSpace_append_right _ _ (by simp)
    apply lastNotSpace_cons _ _ (by decide)
    apply lastNotSpace_append_right _ _ (by simp)
    apply lastNotSpace_cons _ _ (by decide)
    apply lastNotSpace_append_right _ _ (by simp)
    apply lastNotSpace_cons _ _ (by decide)
    exact lastNotSpace_pyIntStrL ms
  rw [parseActionLineL_marker _ (pyStripL_marker _
    (lastNotSpace_append_right _ _ (by simp) hlast))]
  have hK1 : ';' ∉ "Name".data ++ ('=' :: n) :=
    not_mem_append_chars (by decide) (not_mem_cons_chars (by decide) hn)
  have hK2 : ';' ∉ "MS".data ++ ('=' :: pyIntStrL ms) :=
    not_mem_append_chars (by decide)
      (not_mem_cons_chars (by decide) (semi_not_mem_pyIntStrL ms))
  have e1 : "Name".data ++ ('=' :: (n ++ (';' :: ("MS".data ++ ('=' :: pyIntStrL ms))))) =
      ("Name".data ++ ('=' :: n)) ++ (';' :: ("MS".data ++ ('=' :: pyIntStrL ms))) := by
    simp [List.append_assoc]
  have hsplit : splitCharList ';' ("Sleep".data ++ (';' :: ("Name".data ++ ('=' :: (n ++
      (';' :: ("MS".data ++ ('=' :: pyIntStrL ms)))))))) =
      "Sleep".data :: (("Name".data ++ ('=' :: n)) :: [("MS".data ++ ('=' :: pyIntStrL ms))]) := by
    rw [splitCharList_append _ _ _ (by decide), e1, splitCharList_append _ _ _ hK1,
      splitCharList_not_mem _ _ hK2]
  rw [parseBody_cons _ _ _ hsplit]
  have f1 : splitEq ("Name".data ++ ('=' :: n)) = some ("Name".data, n) :=
    splitEq_append _ _ (by decide)
  have f2 : splitEq ("MS".data ++ ('=' :: pyIntStrL ms)) = some ("MS".data, pyIntStrL ms) :=
    splitEq_append _ _ (by decide)
  rw [List.filterMap_cons_some f1, List.filterMap_cons_some f2, List.filterMap_nil]
  have gi1 : kvGetI [("Name".data, n), ("MS".data, pyIntStrL ms)] "MS" = some ms := by
    unfold kvGetI
    have g1 : kvGet [("Name".data, n), ("MS".data, pyIntStrL ms)] "MS".data =
        some (pyIntStrL ms) := rfl
    rw [g1]
    exact pyIntL_pyIntStrL ms
  unfold parseFields
  rw [if_neg (by decide), if_pos rfl, gi1]
  rfl

theorem parse_run_encoded (n c p m : List Char) (hn : ';' ∉ n) (hc : ';' ∉ c)
    (hp : ';' ∉ p) (hm : ';' ∉ m) (hmLast : lastNotSpace m) :
    parseActionLineL (";ACTION:Run;Name=".data ++ n ++ ";Cmd=".data ++ c ++
        ";Params=".data ++ p ++ ";Mode=".data ++ m) =
      some { type := .RUN, name := ⟨n⟩, command := ⟨c⟩, params := ⟨p⟩, mode := ⟨m⟩ } := by
  have lit1 : ";ACTION:Run;Name=".data =
      ";ACTION:".data ++ "Run".data ++ [';'] ++ "Name".data ++ ['='] := by decide
  have lit2 : ";Cmd=".data = [';'] ++ "Cmd".data ++ ['='] := by decide
  have lit3 : ";Params=".data = [';'] ++ "Params".data ++ ['='] := by decide
  have lit4 : ";Mode=".data = [';'] ++ "Mode".data ++ ['='] := by decide
  have harg : ";ACTION:Run;Name=".data ++ n ++ ";Cmd=".data ++ c ++
      ";Params=".data ++ p ++ ";Mode=".data ++ m =
      ";ACTION:".data ++ ("Run".data ++ (';' :: ("Name".data ++ ('=' :: (n ++
        (';' :: ("Cmd".data ++ ('=' :: (c ++
        (';' :: ("Params".data ++ ('=' :: (p ++
        (';' :: ("Mode".data ++ ('=' :: m)))))))))))))))) := by
    rw [lit1, lit2, lit3, lit4]
    simp [List.append_assoc]
  rw [harg]
  have hlast : lastNotSpace ("Run".data ++ (';' :: ("Name".data ++ ('=' :: (n ++
      (';' :: ("Cmd".data ++ ('=' :: (c ++
      (';' :: ("Params".data ++ ('=' :: (p ++
      (';' :: ("Mode".data ++ ('=' :: m)))))))))))))))) := by
    apply lastNotSpace_append_right _ _ (by simp)
    apply lastNotSpace_cons _ _ (by decide)
    apply lastNotSpace_append_right _ _ (by simp)
    apply lastNotSpace_cons _ _ (by decide)
    apply lastNotSpace_append_right _ _ (by simp)
    apply lastNotSpace_cons _ _ (by decide)
    apply lastNotSpace_append_right _ _ (by simp)
    apply lastNotSpace_cons _ _ (by decide)
    apply lastNotSpace_append_right _ _ (by simp)
    apply lastNotSpace_cons _ _ (by decide)
    apply lastNotSpace_append_right _ _ (by simp)
    apply lastNotSpace_cons _ _ (by decide)
    apply lastNotSpace_append_right _ _ (by simp)
    apply lastNotSpace_cons _ _ (by decide)
    apply lastNotSpace_append_right _ _ (by simp)
    apply lastNotSpace_cons _ _ (by decide)
    exact hmLast
  rw [parseActionLineL_marker _ (pyStripL_marker _
    (lastNotSpace_append_right _ _ (by simp) hlast))]
  have hK1 : ';' ∉ "Name".data ++ ('=' :: n) :=
    not_mem_append_chars (by decide) (not_mem_cons_chars (by decide) hn)
  have hK2 : ';' ∉ "Cmd".data ++ ('=' :: c) :=
    not_mem_append_chars (by decide) (not_mem_cons_chars (by decide) hc)
  have hK3 : ';' ∉ "Params".data ++ ('=' :: p) :=
    not_mem_append_chars (by decide) (not_mem_cons_chars (by decide) hp)
  have hK4 : ';' ∉ "Mode".data ++ ('=' :: m) :=
    not_mem_append_chars (by decide) (not_mem_cons_chars (by decide) hm)
  have e1 : "Name".data ++ ('=' :: (n ++ (';' :: ("Cmd".data ++ ('=' :: (c ++
      (';' :: ("Params".data ++ ('=' :: (p ++
      (';' :: ("Mode".data ++ ('=' :: m))))))))))))) =
      ("Name".data ++ ('=' :: n)) ++ (';' :: ("Cmd".data ++ ('=' :: (c ++
      (';' :: ("Params".data ++ ('=' :: (p ++
      (';' :: ("Mode".data ++ ('=' :: m))))))))))) := by
    simp [List.append_assoc]
  have e2 : "Cmd".data ++ ('=' :: (c ++ (';' :: ("Params".data ++ ('=' :: (p ++
      (';' :: ("Mode".data ++ ('=' :: m))))))))) =
      ("Cmd".data ++ ('=' :: c)) ++ (';' :: ("Params".data ++ ('=' :: (p ++
      (';' :: ("Mode".data ++ ('=' :: m))))))) := by
    simp [List.append_assoc]
  have e3 : "Params".data ++ ('=' :: (p ++ (';' :: ("Mode".data ++ ('=' :: m))))) =
      ("Params".data ++ ('=' :: p)) ++ (';' :: ("Mode".data ++ ('=' :: m))) := by
    simp [List.append_assoc]
  have hsplit : splitCharList ';' ("Run".data ++ (';' :: ("Name".data ++ ('=' :: (n ++
      (';' :: ("Cmd".data ++ ('=' :: (c ++
      (';' :: ("Params".data ++ ('=' :: (p ++
      (';' :: ("Mode".data ++ ('=' :: m)))))))))))))))) =
      "Run".data :: (("Name".data ++ ('=' :: n)) :: (("Cmd".data ++ ('=' :: c)) ::
        (("Params".data ++ ('=' :: p)) :: [("Mode".data ++ ('=' :: m))]))) := by
    rw [splitCharList_append _ _ _ (by decide), e1, splitCharList_append _ _ _ hK1,
      e2, splitCharList_append _ _ _ hK2, e3, splitCharList_append _ _ _ hK3,
      splitCharList_not_mem _ _ hK4]
  rw [parseBody_cons _ _ _ hsplit]
  have f1 : splitEq ("Name".data ++ ('=' :: n)) = some ("Name".data, n) :=
    splitEq_append _ _ (by decide)
  have f2 : splitEq ("Cmd".data ++ ('=' :: c)) = some ("Cmd".data, c) :=
    splitEq_append _ _ (by decide)
  have f3 : splitEq ("Params".data ++ ('=' :: p)) = some ("Params".data, p) :=
    splitEq_append _ _ (by decide)
  have f4 : splitEq ("Mode".data ++ ('=' :: m)) = some ("Mode".data, m) :=
    splitEq_append _ _ (by decide)
  rw [List.filterMap_cons_some f1, List.filterMap_cons_some f2,
    List.filterMap_cons_some f3, List.filterMap_cons_some f4, List.filterMap_nil]
  unfold parseFields
  rw [if_neg (by decide), if_neg (by decide), if_pos rfl]
  rfl

theorem parse_keypress_encoded (n c : List Char) (hn : ';' ∉ n) (hc : ';' ∉ c)
    (hcLast : lastNotSpace c) :
    parseActionLineL (";ACTION:KeyPress;Name=".data ++ n ++ ";Key=".data ++ c) =
      some { type := .KEYPRESS, name := ⟨n⟩, command := ⟨c⟩ } := by
  have lit1 : ";ACTION:KeyPress;Name=".data =
      ";ACTION:".data ++ "KeyPress".data ++ [';'] ++ "Name".data ++ ['='] := by decide
  have lit2 : ";Key=".data = [';'] ++ "Key".data ++ ['='] := by decide
  have harg : ";ACTION:KeyPress;Name=".data ++ n ++ ";Key=".data ++ c =
      ";ACTION:".data ++ ("KeyPress".data ++ (';' :: ("Name".data ++ ('=' :: (n ++
        (';' :: ("Key".data ++ ('=' :: c)))))))) := by
    rw [lit1, lit2]
    simp [List.append_assoc]
  rw [harg]
  have hlast : lastNotSpace ("KeyPress".data ++ (';' :: ("Name".data ++ ('=' :: (n ++
      (';' :: ("Key".data ++ ('=' :: c)))))))) := by
    apply lastNotSpace_append_right _ _ (by simp)
    apply lastNotSpace_cons _ _ (by decide)
    apply lastNotSpace_append_right _ _ (by simp)
    apply lastNotSpace_cons _ _ (by decide)
    apply lastNotSpace_append_right _ _ (by simp)
    apply lastNotSpace_cons _ _ (by decide)
    apply lastNotSpace_append_right _ _ (by simp)
    apply lastNotSpace_cons _ _ (by decide)
    exact hcLast
  rw [parseActionLineL_marker _ (pyStripL_marker _
    (lastNotSpace_append_right _ _ (by simp) hlast))]
  have hK1 : ';' ∉ "Name".data ++ ('=' :: n) :=
    not_mem_append_chars (by decide) (not_mem_cons_chars (by decide) hn)
  have hK2 : ';' ∉ "Key".data ++ ('=' :: c) :=
    not_mem_append_chars (by decide) (not_mem_cons_chars (by decide) hc)
  have e1 : "Name".data ++ ('=' :: (n ++ (';' :: ("Key".data ++ ('=' :: c))))) =
      ("Name".data ++ ('=' :: n)) ++ (';' :: ("Key".data ++ ('=' :: c))) := by
    simp [List.append_assoc]
  have hsplit : splitCharList ';' ("KeyPress".data ++ (';' :: ("Name".data ++ ('=' :: (n ++
      (';' :: ("Key".data ++ ('=' :: c)))))))) =
      "KeyPress".data :: (("Name".data ++ ('=' :: n)) :: [("Key".data ++ ('=' :: c))]) := by
    rw [splitCharList_append _ _ _ (by decide), e1, splitCharList_append _ _ _ hK1,
      splitCharList_not_mem _ _ hK2]
  rw [parseBody_cons _ _ _ hsplit]
  have f1 : splitEq ("Name".data ++ ('=' :: n)) = some ("Name".data, n) :=
    splitEq_append _ _ (by decide)
  have f2 : splitEq ("Key".data ++ ('=' :: c)) = some ("Key".data, c) :=
    splitEq_append _ _ (by decide)
  rw [List.filterMap_cons_some f1, List.filterMap_cons_some f2, List.filterMap_nil]
  unfold parseFields
  rw [if_neg (by decide), if_neg (by decide), if_neg (by decide), if_pos rfl]
  rfl

theorem parse_waitwindow_encoded (n c : List Char) (hn : ';' ∉ n) (hc : ';' ∉ c)
    (hcLast : lastNotSpace c) :
    parseActionLineL (";ACTION:WaitWindow;Name=".data ++ n ++ ";Title=".data ++ c) =
      some { type := .WAITWINDOW, name := ⟨n⟩, command := ⟨c⟩ } := by
  have lit1 : ";ACTION:WaitWindow;Name=".data =
      ";ACTION:".data ++ "WaitWindow".data ++ [';'] ++ "Name".data ++ ['='] := by decide
  have lit2 : ";Title=".data = [';'] ++ "Title".data ++ ['='] := by decide
  have harg : ";ACTION:WaitWindow;Name=".data ++ n ++ ";Title=".data ++ c =
      ";ACTION:".data ++ ("WaitWindow".data ++ (';' :: ("Name".data ++ ('=' :: (n ++
        (';' :: ("Title".data ++ ('=' :: c)))))))) := by
    rw [lit1, lit2]
    simp [List.append_assoc]
  rw [harg]
  have hlast : lastNotSpace ("WaitWindow".data ++ (';' :: ("Name".data ++ ('=' :: (n ++
      (';' :: ("Title".data ++ ('=' :: c)))))))) := by
    apply lastNotSpace_append_right _ _ (by simp)
    apply lastNotSpace_cons _ _ (by decide)
    apply lastNotSpace_append_right _ _ (by simp)
    apply lastNotSpace_cons _ _ (by decide)
    apply lastNotSpace_append_right _ _ (by simp)
    apply lastNotSpace_cons _ _ (by decide)
    apply lastNotSpace_append_right _ _ (by simp)
    apply lastNotSpace_cons _ _ (by decide)
    exact hcLast
  rw [parseActionLineL_marker _ (pyStripL_marker _
    (lastNotSpace_append_right _ _ (by simp) hlast))]
  have hK1 : ';' ∉ "Name".data ++ ('=' :: n) :=
    not_mem_append_chars (by decide) (not_mem_cons_chars (by decide) hn)
  have hK2 : ';' ∉ "Title".data ++ ('=' :: c) :=
    not_mem_append_chars (by decide) (not_mem_cons_chars (by decide) hc)
  have e1 : "Name".data ++ ('=' :: (n ++ (';' :: ("Title".data ++ ('=' :: c))))) =
      ("Name".data ++ ('=' :: n)) ++ (';' :: ("Title".data ++ ('=' :: c))) := by
    simp [List.append_assoc]
  have hsplit : splitCharList ';' ("WaitWindow".data ++ (';' :: ("Name".data ++ ('=' :: (n ++
      (';' :: ("Title".data ++ ('=' :: c)))))))) =
      "WaitWindow".data :: (("Name".data ++ ('=' :: n)) :: [("Title".data ++ ('=' :: c))]) := by
    rw [splitCharList_append _ _ _ (by decide), e1, splitCharList_append _ _ _ hK1,
      splitCharList_not_mem _ _ hK2]
  rw [parseBody_cons _ _ _ hsplit]
  have f1 : splitEq ("Name".data ++ ('=' :: n)) = some ("Name".data, n) :=
    splitEq_append _ _ (by decide)
  have f2 : splitEq ("Title".data ++ ('=' :: c)) = some ("Title".data, c) :=
    splitEq_append _ _ (by decide)
  rw [List.filterMap_cons_some f1, List.filterMap_cons_some f2, List.filterMap_nil]
  unfold parseFields
  rw [if_neg (by decide), if_neg (by decide), if_neg (by decide), if_neg (by decide),
    if_pos rfl]
  rfl

end AhkGen

namespace AhkGen

/-! ## Properties of the params escaping -/

theorem replaceSemiL_no_semi (l : List Char) : ';' ∉ replaceSemiL l := by
  intro h
  unfold replaceSemiL at h
  obtain ⟨c, _, he⟩ := List.mem_map.mp h
  by_cases hc : c = ';'
  · rw [if_pos hc] at he
    exact absurd he (by decide)
  · rw [if_neg hc] at he
    exact hc he

theorem replaceSemiL_of_no_semi (l : List Char) (h : ';' ∉ l) : replaceSemiL l = l := by
  induction l with
  | nil => rfl
  | cons c cs ih =>
    have hc : ¬ c = ';' := fun e => h (e ▸ List.mem_cons_self c cs)
    have hcs : ';' ∉ cs := fun m => h (List.mem_cons_of_mem _ m)
    simp only [replaceSemiL, List.map_cons]
    rw [if_neg fun e => hc e]
    exact congrArg (c :: ·) (ih hcs)

theorem replaceSemi_idem (p : String) : replaceSemi (replaceSemi p) = replaceSemi p :=
  congrArg String.mk (replaceSemiL_of_no_semi _ (replaceSemiL_no_semi p.data))

/-! ## C1 — Run command quoting -/

/-- C1 counterexample: with an existence predicate true on "notepad" (no
space, no quote), the generated Run line quotes the command, contradicting
the claim that an existing command without a space is emitted unquoted. -/
theorem ahk_run_quoting_counterexample :
    (fun s => s == "notepad") "notepad" = true ∧
    containsChar "notepad" ' ' = false ∧
    containsChar "notepad" '"' = false ∧
    Action.to_ahk_lines (fun s => s == "notepad")
      { type := .RUN, name := "Run", command := "notepad" } = ["Run, \"notepad\""] ∧
    ("Run, \"notepad\"" : String) ≠ "Run, notepad" := by
  refine ⟨by decide, by decide, by decide, by decide, by decide⟩

/-- C1 (amended): the Run line is a single line built from the wrapped
command token, and the token is wrapped in double quotes iff the existence
predicate holds AND (the command contains a space OR it does not contain a
double quote); in every other case the command appears verbatim. -/
theorem ahk_run_quoting_amended (ex : String → Bool) (n : String) (x y ms : Int)
    (c m p : String) :
    Action.to_ahk_lines ex ⟨.RUN, n, x, y, ms, c, m, p⟩ =
      [if mode_map m = "" then "Run, " ++ cmdWrapped ex c ++ paramText p
       else "Run, " ++ cmdWrapped ex c ++ paramText p ++ ", , " ++ mode_map m] ∧
    (cmdWrapped ex c = "\"" ++ c ++ "\"" ↔
      ex c = true ∧ (containsChar c ' ' = true ∨ containsChar c '"' = false)) := by
  constructor
  · by_cases h : mode_map m = "" <;> simp [Action.to_ahk_lines, h]
  · constructor
    · intro heq
      by_cases hcond : (ex c && (containsChar c ' ' || !(containsChar c '"'))) = true
      · simpa [Bool.and_eq_true, Bool.or_eq_true, Bool.not_eq_true'] using hcond
      · exfalso
        unfold cmdWrapped at heq
        rw [if_neg hcond] at heq
        have hlen := congrArg String.length heq
        have l1 : ("\"" : String).length = 1 := rfl
        rw [String.length_append, String.length_append, l1] at hlen
        omega
    · intro ⟨h1, h2⟩
      unfold cmdWrapped
      rw [if_pos]
      rw [h1]
      rcases h2 with h | h <;> simp [h]

/-! ## C6 — Run launch-mode mapping -/

/-- C6: the mode table maps Normal, Minimized, Maximized, Hidden to "",
"Min", "Max", "Hide"; a Hidden Run emits one line with the trailing `, ,
Hide` argument, a Normal Run emits one line with no trailing mode argument
at all. -/
theorem run_mode_mapping (ex : String → Bool) (n : String) (x y ms : Int) (c p : String) :
    Action.to_ahk_lines ex ⟨.RUN, n, x, y, ms, c, "Hidden", p⟩ =
      ["Run, " ++ cmdWrapped ex c ++ paramText p ++ ", , " ++ "Hide"] ∧
    Action.to_ahk_lines ex ⟨.RUN, n, x, y, ms, c, "Normal", p⟩ =
      ["Run, " ++ cmdWrapped ex c ++ paramText p] ∧
    mode_map "Normal" = "" ∧ mode_map "Minimized" = "Min" ∧
    mode_map "Maximized" = "Max" ∧ mode_map "Hidden" = "Hide" :=
  ⟨rfl, rfl, rfl, rfl, rfl, rfl⟩

/-! ## C10 — escaping applies only to params -/

/-- C10: the comment encoder escapes ';' to ',' only in params — name and
command are emitted verbatim — so a Run command containing ';' is written
unescaped and decodes to a command truncated at the ';'. -/
theorem comment_escapes_params_only :
    (∀ (n : String) (x y ms : Int) (c m p : String),
      Action.to_comment ⟨.RUN, n, x, y, ms, c, m, p⟩ =
        ";ACTION:Run;Name=" ++ n ++ ";Cmd=" ++ c ++ ";Params=" ++
          replaceSemi p ++ ";Mode=" ++ m) ∧
    Action.to_comment { type := .RUN, name := "n", command := "a;b" } =
      ";ACTION:Run;Name=n;Cmd=a;b;Params=;Mode=Normal" ∧
    parseActionLine (Action.to_comment { type := .RUN, name := "n", command := "a;b" }) =
      some { type := .RUN, name := "n", command := "a" } ∧
    ({ type := .RUN, name := "n", command := "a" } : Action).command ≠
      ({ type := .RUN, name := "n", command := "a;b" } : Action).command := by
  refine ⟨fun n x y ms c m p => rfl, by decide, by decide, by decide⟩

theorem parseRecord_some (r : ActionRecord) (t : String) (h : r.type? = some t) :
    parseRecord r =
      match parseActionType t with
      | none => .error "ValueError"
      | some ty =>
        .ok { type := ty, name := r.name?.getD (r.type?.getD "Action"),
              x := r.x?.getD 0, y := r.y?.getD 0, ms := r.ms?.getD 0,
              command := r.command?.getD "", mode := r.mode?.getD "Normal",
              params := r.params?.getD "" } := by
  unfold parseRecord
  rw [h]

/-! ## C7 — persisted record defaults -/

/-- C7 counterexample: a record that HAS a type field (value "Bogus") and is
missing mode and params does not deserialize successfully — ActionType(...)
raises ValueError — contradicting the claim that any record with a type
field loads with defaults. -/
theorem record_unknown_type_counterexample :
    parseRecord { type? := some "Bogus", mode? := none, params? := none } =
      .error "ValueError" := rfl

/-- C7 (amended): a persisted record whose type field holds one of the five
kind names and which is missing mode and params deserializes successfully
with mode "Normal" and params "", x/y/ms defaulting to 0, command to "",
and name to the stored type value, when those are absent. -/
theorem record_defaults_amended (r : ActionRecord) (t : String) (ty : ActionType)
    (h1 : r.type? = some t) (h2 : parseActionType t = some ty)
    (h3 : r.mode? = none) (h4 : r.params? = none) :
    ∃ a : Action, parseRecord r = .ok a ∧ a.type = ty ∧ a.mode = "Normal" ∧ a.params = "" ∧
      (r.x? = none → a.x = 0) ∧ (r.y? = none → a.y = 0) ∧ (r.ms? = none → a.ms = 0) ∧
      (r.command? = none → a.command = "") ∧ (r.name? = none → a.name = t) := by
  refine ⟨{ type := ty, name := r.name?.getD (r.type?.getD "Action"),
            x := r.x?.getD 0, y := r.y?.getD 0, ms := r.ms?.getD 0,
            command := r.command?.getD "", mode := r.mode?.getD "Normal",
            params := r.params?.getD "" }, ?_, ?_, ?_, ?_, ?_, ?_, ?_, ?_, ?_⟩
  · rw [parseRecord_some r t h1, h2]
  · rfl
  · rw [h3]; rfl
  · rw [h4]; rfl
  · intro h; rw [h]; rfl
  · intro h; rw [h]; rfl
  · intro h; rw [h]; rfl
  · intro h; rw [h]; rfl
  · intro h; rw [h, h1]; rfl

/-- C7 witness: a Run record with only type and x present loads with all
the documented defaults. -/
theorem record_defaults_amended_witness :
    ∃ a : Action, parseRecord { type? := some "Run", x? := some 7 } = .ok a ∧
      a.type = .RUN ∧ a.mode = "Normal" ∧ a.params = "" ∧
      (({ type? := some "Run", x? := some 7 } : ActionRecord).x? = none → a.x = 0) ∧
      (({ type? := some "Run", x? := some 7 } : ActionRecord).y? = none → a.y = 0) ∧
      (({ type? := some "Run", x? := some 7 } : ActionRecord).ms? = none → a.ms = 0) ∧
      (({ type? := some "Run", x? := some 7 } : ActionRecord).command? = none → a.command = "") ∧
      (({ type? := some "Run", x? := some 7 } : ActionRecord).name? = none → a.name = "Run") :=
  record_defaults_amended { type? := some "Run", x? := some 7 } "Run" .RUN rfl rfl rfl rfl

end AhkGen

namespace AhkGen

/-! ## C3 — failed JSON load leaves partially mutated state -/

theorem loadRecords_header (st : GuiState) (rs : List ActionRecord) :
    (loadRecords st rs).1.appName = st.appName ∧ (loadRecords st rs).1.hotkey = st.hotkey := by
  induction rs generalizing st with
  | nil => exact ⟨rfl, rfl⟩
  | cons r rest ih =>
    unfold loadRecords
    cases hpr : parseRecord r with
    | ok a => exact ih _
    | error e => exact ⟨rfl, rfl⟩

theorem loadRecords_stops (st : GuiState) (rs : List ActionRecord)
    (h : ∃ r ∈ rs, r.type? = none) : (loadRecords st rs).2.isSome = true := by
  induction rs generalizing st with
  | nil => simp at h
  | cons r0 rest ih =>
    unfold loadRecords
    cases hpr : parseRecord r0 with
    | error e => rfl
    | ok a =>
      obtain ⟨r, hr, hnone⟩ := h
      rcases List.mem_cons.mp hr with he | hmem
      · subst he
        unfold parseRecord at hpr
        rw [hnone] at hpr
        cases hpr
      · exact ih _ ⟨r, hmem, hnone⟩

/-- C3 counterexample: loading a document whose only action record lacks
the type discriminator surfaces an error, yet the caller-visible state is
NOT the state from before the load — the name and hotkey fields are
already overwritten from the document. -/
theorem load_missing_type_counterexample :
    ((loadJson ⟨"Old", "F1", []⟩
        ⟨some "New", some "^!z", [{ type? := none }]⟩).2).isSome = true ∧
    (loadJson ⟨"Old", "F1", []⟩
        ⟨some "New", some "^!z", [{ type? := none }]⟩).1 ≠ ⟨"Old", "F1", []⟩ := by
  refine ⟨rfl, by decide⟩

/-- Running the record loop over a good prefix and then a record missing
the type discriminator: every prefix record is appended, then the KeyError
stops the loop with the state as mutated so far. -/
theorem loadRecords_prefix (st : GuiState) (rs1 : List ActionRecord) (r : ActionRecord)
    (rs2 : List ActionRecord) (hok : ∀ q ∈ rs1, (parseRecord q).isOk = true)
    (hmiss : r.type? = none) :
    loadRecords st (rs1 ++ r :: rs2) =
      ({ st with actions := st.actions ++ rs1.filterMap (fun q => (parseRecord q).toOption) },
       some "KeyError") := by
  induction rs1 generalizing st with
  | nil =>
    have hpr : parseRecord r = .error "KeyError" := by
      unfold parseRecord
      rw [hmiss]
    have hred : loadRecords st (r :: rs2) = (st, some "KeyError") := by
      unfold loadRecords
      rw [hpr]
    show loadRecords st (r :: rs2) = _
    rw [hred]
    simp
  | cons q qs ih =>
    have hq := hok q (List.mem_cons_self q qs)
    cases hpq : parseRecord q with
    | error e =>
      rw [hpq] at hq
      simp [Except.isOk, Except.toBool] at hq
    | ok a =>
      have hred : loadRecords st ((q :: qs) ++ r :: rs2) =
          loadRecords { st with actions := st.actions ++ [a] } (qs ++ r :: rs2) := by
        show (match parseRecord q with
          | .ok a => loadRecords { st with actions := st.actions ++ [a] } (qs ++ r :: rs2)
          | .error e => (st, some e)) =
          loadRecords { st with actions := st.actions ++ [a] } (qs ++ r :: rs2)
        rw [hpq]
      rw [hred, ih _ (fun z hz => hok z (List.mem_cons_of_mem _ hz))]
      simp [List.filterMap_cons, hpq, Except.toOption, List.append_assoc]

/-- C3 (amended): when the document's records are a prefix that loads fine
followed by a record missing the type discriminator, the load fails with an
error surfaced to the caller, but the project state is partially mutated —
the application name and hotkey are already set from the document, the
action list was cleared, and exactly the actions decoded from the records
before the failing one are retained. -/
theorem load_missing_type_partial (st : GuiState) (d : ProjectDoc)
    (rs1 : List ActionRecord) (r : ActionRecord) (rs2 : List ActionRecord)
    (hsplit : d.actionRecords = rs1 ++ r :: rs2)
    (hok : ∀ q ∈ rs1, (parseRecord q).isOk = true)
    (hmiss : r.type? = none) :
    (loadJson st d).2.isSome = true ∧
    (loadJson st d).1.appName = d.app_name?.getD "MyScript" ∧
    (loadJson st d).1.hotkey = d.hotkey?.getD "^!z" ∧
    (loadJson st d).1.actions = rs1.filterMap (fun q => (parseRecord q).toOption) := by
  unfold loadJson
  rw [hsplit, loadRecords_prefix _ _ _ _ hok hmiss]
  refine ⟨rfl, rfl, rfl, ?_⟩
  simp

/-- C3 witness: a prior state holding one action, a document with one good
Click record followed by a record missing its type. -/
theorem load_missing_type_partial_witness :
    (loadJson ⟨"Old", "F1", [{ type := .SLEEP, name := "s" }]⟩
        ⟨some "New", some "^!z",
          [{ type? := some "Click" }, { type? := none }]⟩).2.isSome = true ∧
    (loadJson ⟨"Old", "F1", [{ type := .SLEEP, name := "s" }]⟩
        ⟨some "New", some "^!z",
          [{ type? := some "Click" }, { type? := none }]⟩).1.appName =
      (some "New").getD "MyScript" ∧
    (loadJson ⟨"Old", "F1", [{ type := .SLEEP, name := "s" }]⟩
        ⟨some "New", some "^!z",
          [{ type? := some "Click" }, { type? := none }]⟩).1.hotkey =
      (some "^!z").getD "^!z" ∧
    (loadJson ⟨"Old", "F1", [{ type := .SLEEP, name := "s" }]⟩
        ⟨some "New", some "^!z",
          [{ type? := some "Click" }, { type? := none }]⟩).1.actions =
      ([{ type? := some "Click" }] : List ActionRecord).filterMap
        (fun q => (parseRecord q).toOption) :=
  load_missing_type_partial ⟨"Old", "F1", [{ type := .SLEEP, name := "s" }]⟩
    ⟨some "New", some "^!z", [{ type? := some "Click" }, { type? := none }]⟩
    [{ type? := some "Click" }] { type? := none } [] rfl (by decide) rfl

/-! ## C4 — importer tolerance of malformed lines -/

theorem importLines_all_none (ls : List String) (h : ∀ l ∈ ls, parseActionLine l = none) :
    importLines ls = [] := by
  induction ls with
  | nil => rfl
  | cons l rest ih =>
    unfold importLines at ih ⊢
    rw [List.filterMap_cons_none (h l (List.mem_cons_self l rest))]
    exact ih fun l2 h2 => h l2 (List.mem_cons_of_mem _ h2)

/-- C4: any script line list holding one decodable line and one
non-decodable candidate among otherwise non-decodable lines imports to
exactly the one recovered Action, whichever order the good and the bad line
appear in; the model is total, so no exception propagates. -/
theorem importer_tolerance (pre mid post : List String) (good bad : String) (a : Action)
    (hjunk : ∀ l ∈ pre ++ mid ++ post, parseActionLine l = none)
    (hg : parseActionLine good = some a) (hb : parseActionLine bad = none) :
    importLines (pre ++ good :: (mid ++ bad :: post)) = [a] ∧
    importLines (pre ++ bad :: (mid ++ good :: post)) = [a] := by
  have hpre : importLines pre = [] :=
    importLines_all_none _ fun l hl => hjunk l (by simp [hl])
  have hmid : importLines mid = [] :=
    importLines_all_none _ fun l hl => hjunk l (by simp [hl])
  have hpost : importLines post = [] :=
    importLines_all_none _ fun l hl => hjunk l (by simp [hl])
  unfold importLines at hpre hmid hpost ⊢
  constructor
  · rw [List.filterMap_append, List.filterMap_cons_some hg, List.filterMap_append,
      List.filterMap_cons_none hb, hpre, hmid, hpost]
    rfl
  · rw [List.filterMap_append, List.filterMap_cons_none hb, List.filterMap_append,
      List.filterMap_cons_some hg, hpre, hmid, hpost]
    rfl

/-- C4 witness: a two-line script, one well-formed Click line and one
malformed one (non-numeric X), in both orders. -/
theorem importer_tolerance_witness :
    importLines ([] ++ ";ACTION:Click;Name=A;X=1;Y=2" :: ([] ++ ";ACTION:Click;X=abc;Y=0" :: [])) =
      [{ type := .CLICK, name := "A", x := 1, y := 2 }] ∧
    importLines ([] ++ ";ACTION:Click;X=abc;Y=0" :: ([] ++ ";ACTION:Click;Name=A;X=1;Y=2" :: [])) =
      [{ type := .CLICK, name := "A", x := 1, y := 2 }] :=
  importer_tolerance [] [] [] ";ACTION:Click;Name=A;X=1;Y=2" ";ACTION:Click;X=abc;Y=0"
    { type := .CLICK, name := "A", x := 1, y := 2 }
    (by intro l hl; simp at hl) (by decide) (by decide)

end AhkGen

namespace AhkGen

/-! ## C2 — comment codec round-trip -/

/-- C2 counterexample: a WaitWindow action whose fields contain no ';' but
whose command ends in a space does not round-trip — the loader strips the
line, so the decoded command loses its trailing space. -/
theorem comment_roundtrip_counterexample :
    (';' ∉ ("W" : String).data) ∧ (';' ∉ ("a " : String).data) ∧
    parseActionLine (Action.to_comment { type := .WAITWINDOW, name := "W", command := "a " }) =
      some { type := .WAITWINDOW, name := "W", command := "a" } ∧
    ({ type := .WAITWINDOW, name := "W", command := "a" } : Action) ≠
      { type := .WAITWINDOW, name := "W", command := "a " } := by
  refine ⟨by decide, by decide, by decide, by decide⟩

/-- C2 (amended): for every Action whose free-text fields name, command and
params contain no ';', and which additionally does not lose trailing
whitespace to the loader's strip — for Run the mode is ';'-free and does
not end in whitespace, for KeyPress and WaitWindow the command does not end
in whitespace — decoding the encoded metadata comment line yields an
Action equal to the original on kind, name, and all kind-relevant fields
(x, y for Click; ms for Sleep; command, params, mode for Run; command for
KeyPress and WaitWindow). -/
theorem comment_roundtrip_amended (a : Action)
    (hn : ';' ∉ a.name.data)
    (hc : ';' ∉ a.command.data)
    (hp : ';' ∉ a.params.data)
    (hmode : a.type = .RUN → ';' ∉ a.mode.data ∧ noTrailSpaceB a.mode.data = true)
    (hcmd : a.type = .KEYPRESS ∨ a.type = .WAITWINDOW →
      noTrailSpaceB a.command.data = true) :
    ∃ b : Action, parseActionLine a.to_comment = some b ∧
      b.type = a.type ∧ b.name = a.name ∧
      (a.type = .CLICK → b.x = a.x ∧ b.y = a.y) ∧
      (a.type = .SLEEP → b.ms = a.ms) ∧
      (a.type = .RUN → b.command = a.command ∧ b.params = a.params ∧ b.mode = a.mode) ∧
      (a.type = .KEYPRESS ∨ a.type = .WAITWINDOW → b.command = a.command) := by
  obtain ⟨ty, nm, x, y, ms2, cmd, mode, params⟩ := a
  cases ty with
  | CLICK =>
    refine ⟨{ type := .CLICK, name := nm, x := x, y := y }, ?_, rfl, rfl,
      fun _ => ⟨rfl, rfl⟩, fun h => by simp at h, fun h => by simp at h,
      fun h => by simp at h⟩
    have hdata : (Action.to_comment ⟨.CLICK, nm, x, y, ms2, cmd, mode, params⟩).data =
        ";ACTION:Click;Name=".data ++ nm.data ++ ";X=".data ++ pyIntStrL x ++
        ";Y=".data ++ pyIntStrL y := by
      simp [Action.to_comment, String.data_append, pyIntStr]
    unfold parseActionLine
    rw [hdata]
    exact parse_click_encoded nm.data x y hn
  | SLEEP =>
    refine ⟨{ type := .SLEEP, name := nm, ms := ms2 }, ?_, rfl, rfl,
      fun h => by simp at h, fun _ => rfl, fun h => by simp at h,
      fun h => by simp at h⟩
    have hdata : (Action.to_comment ⟨.SLEEP, nm, x, y, ms2, cmd, mode, params⟩).data =
        ";ACTION:Sleep;Name=".data ++ nm.data ++ ";MS=".data ++ pyIntStrL ms2 := by
      simp [Action.to_comment, String.data_append, pyIntStr]
    unfold parseActionLine
    rw [hdata]
    exact parse_sleep_encoded nm.data ms2 hn
  | RUN =>
    obtain ⟨hm1, hm2⟩ := hmode rfl
    refine ⟨{ type := .RUN, name := nm, command := cmd, params := params, mode := mode }, ?_,
      rfl, rfl, fun h => by simp at h, fun h => by simp at h,
      fun _ => ⟨rfl, rfl, rfl⟩, fun h => by simp at h⟩
    have hdata : (Action.to_comment ⟨.RUN, nm, x, y, ms2, cmd, mode, params⟩).data =
        ";ACTION:Run;Name=".data ++ nm.data ++ ";Cmd=".data ++ cmd.data ++
        ";Params=".data ++ params.data ++ ";Mode=".data ++ mode.data := by
      simp [Action.to_comment, String.data_append, replaceSemi,
        replaceSemiL_of_no_semi params.data hp]
    unfold parseActionLine
    rw [hdata]
    exact parse_run_encoded nm.data cmd.data params.data mode.data hn hc hp hm1
      (lastNotSpace_of_B _ hm2)
  | KEYPRESS =>
    refine ⟨{ type := .KEYPRESS, name := nm, command := cmd }, ?_, rfl, rfl,
      fun h => by simp at h, fun h => by simp at h,
      fun h => by simp at h, fun _ => rfl⟩
    have hdata : (Action.to_comment ⟨.KEYPRESS, nm, x, y, ms2, cmd, mode, params⟩).data =
        ";ACTION:KeyPress;Name=".data ++ nm.data ++ ";Key=".data ++ cmd.data := by
      simp [Action.to_comment, String.data_append]
    unfold parseActionLine
    rw [hdata]
    exact parse_keypress_encoded nm.data cmd.data hn hc
      (lastNotSpace_of_B _ (hcmd (Or.inl rfl)))
  | WAITWINDOW =>
    refine ⟨{ type := .WAITWINDOW, name := nm, command := cmd }, ?_, rfl, rfl,
      fun h => by simp at h, fun h => by simp at h,
      fun h => by simp at h, fun _ => rfl⟩
    have hdata : (Action.to_comment ⟨.WAITWINDOW, nm, x, y, ms2, cmd, mode, params⟩).data =
        ";ACTION:WaitWindow;Name=".data ++ nm.data ++ ";Title=".data ++ cmd.data := by
      simp [Action.to_comment, String.data_append]
    unfold parseActionLine
    rw [hdata]
    exact parse_waitwindow_encoded nm.data cmd.data hn hc
      (lastNotSpace_of_B _ (hcmd (Or.inr rfl)))

/-- C2 witness: the amended round-trip at a concrete Run action. -/
theorem comment_roundtrip_witness :
    ∃ b : Action,
      parseActionLine (Action.to_comment
          { type := .RUN, name := "Launch", command := "notepad", mode := "Hidden",
            params := "p q" }) = some b ∧
      b.type = .RUN ∧ b.name = "Launch" ∧
      (ActionType.RUN = ActionType.CLICK → b.x = 0 ∧ b.y = 0) ∧
      (ActionType.RUN = ActionType.SLEEP → b.ms = 0) ∧
      (ActionType.RUN = ActionType.RUN →
        b.command = "notepad" ∧ b.params = "p q" ∧ b.mode = "Hidden") ∧
      (ActionType.RUN = ActionType.KEYPRESS ∨ ActionType.RUN = ActionType.WAITWINDOW →
        b.command = "notepad") :=
  comment_roundtrip_amended
    { type := .RUN, name := "Launch", command := "notepad", mode := "Hidden", params := "p q" }
    (by decide) (by decide) (by decide) (fun _ => ⟨by decide, by decide⟩)
    (fun h => by rcases h with h | h <;> exact absurd h (by decide))

end AhkGen

namespace AhkGen

/-! ## C5 — lossy params escaping -/

/-- C5 counterexample: with a command containing ';' (allowed by the claim,
which only constrains params), re-encoding the decoded action does NOT
reproduce the original comment line — the command was truncated at its
';'. -/
theorem run_params_reencode_counterexample :
    (';' ∈ ("p;q" : String).data) ∧
    parseActionLine (Action.to_comment
        { type := .RUN, name := "n", command := "a;b", params := "p;q" }) =
      some { type := .RUN, name := "n", command := "a", params := "p,q" } ∧
    Action.to_comment { type := .RUN, name := "n", command := "a", params := "p,q" } ≠
      Action.to_comment { type := .RUN, name := "n", command := "a;b", params := "p;q" } := by
  refine ⟨by decide, by decide, by decide⟩

/-- C5 (amended): for a Run Action whose params contains ';', provided its
name and command are ';'-free and its mode is one of the four launch modes,
the encoded line carries params with every ';' replaced by ',', decoding
yields the Action with the replaced params (other fields intact), and
re-encoding that decoded Action reproduces the same comment line. -/
theorem run_params_escape_roundtrip (n c m p : String) (x y ms : Int)
    (hn : ';' ∉ n.data) (hc : ';' ∉ c.data)
    (hm : m = "Normal" ∨ m = "Minimized" ∨ m = "Maximized" ∨ m = "Hidden")
    (hp : ';' ∈ p.data) :
    Action.to_comment ⟨.RUN, n, x, y, ms, c, m, p⟩ =
      ";ACTION:Run;Name=" ++ n ++ ";Cmd=" ++ c ++ ";Params=" ++ replaceSemi p ++
        ";Mode=" ++ m ∧
    parseActionLine (Action.to_comment ⟨.RUN, n, x, y, ms, c, m, p⟩) =
      some ⟨.RUN, n, 0, 0, 0, c, m, replaceSemi p⟩ ∧
    Action.to_comment ⟨.RUN, n, 0, 0, 0, c, m, replaceSemi p⟩ =
      Action.to_comment ⟨.RUN, n, x, y, ms, c, m, p⟩ := by
  have hm1 : ';' ∉ m.data := by
    rcases hm with rfl | rfl | rfl | rfl <;> decide
  have hm2 : lastNotSpace m.data := by
    rcases hm with rfl | rfl | rfl | rfl <;> exact lastNotSpace_of_B _ (by decide)
  have hpr : ';' ∉ (replaceSemi p).data := replaceSemiL_no_semi p.data
  refine ⟨rfl, ?_, ?_⟩
  · have hdata : (Action.to_comment ⟨.RUN, n, x, y, ms, c, m, p⟩).data =
        ";ACTION:Run;Name=".data ++ n.data ++ ";Cmd=".data ++ c.data ++
        ";Params=".data ++ (replaceSemi p).data ++ ";Mode=".data ++ m.data := by
      simp [Action.to_comment, String.data_append]
    unfold parseActionLine
    rw [hdata]
    exact parse_run_encoded n.data c.data (replaceSemi p).data m.data hn hc hpr hm1 hm2
  · show (";ACTION:Run;Name=" ++ n ++ ";Cmd=" ++ c ++ ";Params=" ++
        replaceSemi (replaceSemi p) ++ ";Mode=" ++ m : String) = _
    rw [replaceSemi_idem]
    rfl

/-- C5 witness: the amended statement at a concrete Run action whose params
holds a ';'. -/
theorem run_params_escape_roundtrip_witness :
    Action.to_comment ⟨.RUN, "n", 0, 0, 0, "cmd", "Normal", "p;q"⟩ =
      ";ACTION:Run;Name=" ++ "n" ++ ";Cmd=" ++ "cmd" ++ ";Params=" ++
        replaceSemi "p;q" ++ ";Mode=" ++ "Normal" ∧
    parseActionLine (Action.to_comment ⟨.RUN, "n", 0, 0, 0, "cmd", "Normal", "p;q"⟩) =
      some ⟨.RUN, "n", 0, 0, 0, "cmd", "Normal", replaceSemi "p;q"⟩ ∧
    Action.to_comment ⟨.RUN, "n", 0, 0, 0, "cmd", "Normal", replaceSemi "p;q"⟩ =
      Action.to_comment ⟨.RUN, "n", 0, 0, 0, "cmd", "Normal", "p;q"⟩ :=
  run_params_escape_roundtrip "n" "cmd" "Normal" "p;q" 0 0 0
    (by decide) (by decide) (Or.inl rfl) (by decide)

end AhkGen

namespace AhkGen

/-! ## C9 — sign of decoded numeric fields -/

theorem pyIntL_nonneg (l : List Char) (i : Int) (hm : '-' ∉ l)
    (h : pyIntL l = some i) : 0 ≤ i := by
  have hm2 : '-' ∉ pyStripL l := fun hx => hm (mem_of_mem_pyStripL _ _ hx)
  cases e : pyStripL l with
  | nil =>
    have hred : pyIntL l = none := by
      unfold pyIntL
      rw [e]
    rw [hred] at h
    cases h
  | cons c rest =>
    have hred : pyIntL l =
        if c = '+' then (pyIntBody rest).map Int.ofNat
        else if c = '-' then (pyIntBody rest).map (fun n => -(Int.ofNat n))
        else (pyIntBody (c :: rest)).map Int.ofNat := by
      unfold pyIntL
      rw [e]
    rw [hred] at h
    have hcm : ¬ c = '-' := by
      intro hh
      apply hm2
      rw [e, hh]
      exact List.mem_cons_self _ _
    by_cases hplus : c = '+'
    · rw [if_pos hplus] at h
      obtain ⟨nn, _, rfl⟩ := Option.map_eq_some'.mp h
      exact Int.natCast_nonneg nn
    · rw [if_neg hplus, if_neg hcm] at h
      obtain ⟨nn, _, rfl⟩ := Option.map_eq_some'.mp h
      exact Int.natCast_nonneg nn

theorem kvGet_val_mem (kv : List (List Char × List Char)) (k v : List Char)
    (h : kvGet kv k = some v) : ∃ pr ∈ kv, pr.2 = v := by
  induction kv with
  | nil => simp [kvGet] at h
  | cons p rest ih =>
    cases e : kvGet rest k with
    | some v2 =>
      have hred : kvGet (p :: rest) k = some v2 := by
        unfold kvGet
        rw [e]
      rw [hred] at h
      have hv : v2 = v := Option.some.inj h
      subst hv
      obtain ⟨pr, hm3, he⟩ := ih e
      exact ⟨pr, List.mem_cons_of_mem _ hm3, he⟩
    | none =>
      have hred : kvGet (p :: rest) k = if p.1 = k then some p.2 else none := by
        unfold kvGet
        rw [e]
      rw [hred] at h
      by_cases hk : p.1 = k
      · rw [if_pos hk] at h
        exact ⟨p, List.mem_cons_self _ _, Option.some.inj h⟩
      · rw [if_neg hk] at h
        cases h

theorem kvGetI_nonneg (kv : List (List Char × List Char)) (k : String) (i : Int)
    (hkv : ∀ pr ∈ kv, '-' ∉ pr.2) (h : kvGetI kv k = some i) : 0 ≤ i := by
  unfold kvGetI at h
  cases e : kvGet kv k.data with
  | none =>
    rw [e] at h
    have h2 := Option.some.inj h
    omega
  | some v =>
    rw [e] at h
    obtain ⟨pr, hpr, he⟩ := kvGet_val_mem _ _ _ e
    exact pyIntL_nonneg v i (he ▸ hkv pr hpr) h

theorem parseFields_nonneg (typ : List Char) (kv : List (List Char × List Char))
    (hkv : ∀ pr ∈ kv, '-' ∉ pr.2) (a : Action) (h : parseFields typ kv = some a) :
    0 ≤ a.x ∧ 0 ≤ a.y ∧ 0 ≤ a.ms := by
  unfold parseFields at h
  split_ifs at h
  · cases e1 : kvGetI kv "X" with
    | none => rw [e1] at h; simp at h
    | some xv =>
      rw [e1] at h
      cases e2 : kvGetI kv "Y" with
      | none => rw [e2] at h; simp at h
      | some yv =>
        rw [e2] at h
        have h2 := Option.some.inj h
        subst h2
        exact ⟨kvGetI_nonneg kv "X" xv hkv e1, kvGetI_nonneg kv "Y" yv hkv e2, by simp⟩
  · cases e1 : kvGetI kv "MS" with
    | none => rw [e1] at h; simp at h
    | some mv =>
      rw [e1] at h
      have h2 := Option.some.inj h
      subst h2
      exact ⟨by simp, by simp, kvGetI_nonneg kv "MS" mv hkv e1⟩
  · have h2 := Option.some.inj h
    subst h2
    exact ⟨by simp, by simp, by simp⟩
  · have h2 := Option.some.inj h
    subst h2
    exact ⟨by simp, by simp, by simp⟩
  · have h2 := Option.some.inj h
    subst h2
    exact ⟨by simp, by simp, by simp⟩

/-- C9 counterexample: the importer accepts a Click line whose X value is
"-5" — Python int() parses the minus sign — so the decoded action violates
the non-negativity invariant. -/
theorem import_negative_counterexample :
    parseActionLine ";ACTION:Click;Name=C;X=-5;Y=0" =
      some { type := .CLICK, name := "C", x := -5, y := 0 } ∧
    ({ type := .CLICK, name := "C", x := -5, y := 0 } : Action).x < 0 := by
  refine ⟨by decide, by decide⟩

/-- C9 (amended): an accepted metadata line whose text contains no '-'
character decodes to an Action with non-negative x, y and ms; in general a
minus sign in a numeric field is parsed and produces a negative field. -/
theorem import_nonneg_amended (line : String) (a : Action)
    (hm : '-' ∉ line.data) (h : parseActionLine line = some a) :
    0 ≤ a.x ∧ 0 ≤ a.y ∧ 0 ≤ a.ms := by
  unfold parseActionLine parseActionLineL at h
  by_cases hmk : (pyStripL line.data).take (";ACTION:".data.length) = ";ACTION:".data
  case neg => rw [if_neg hmk] at h; cases h
  rw [if_pos hmk] at h
  have hsub : ∀ ch : Char, ch ∈ (pyStripL line.data).drop (";ACTION:".data.length) →
      ch ∈ line.data := fun ch hc =>
    mem_of_mem_pyStripL _ _ (List.drop_subset _ _ hc)
  unfold parseBody at h
  cases esp : splitCharList ';' ((pyStripL line.data).drop (";ACTION:".data.length)) with
  | nil => rw [esp] at h; cases h
  | cons typ rest =>
    rw [esp] at h
    have hkv : ∀ pr ∈ rest.filterMap splitEq, '-' ∉ pr.2 := by
      intro pr hpr hmem
      obtain ⟨piece, hpiece, hse⟩ := List.mem_filterMap.mp hpr
      have h1 : '-' ∈ piece := splitEq_mem piece pr hse '-' hmem
      have h2 : piece ∈ splitCharList ';' ((pyStripL line.data).drop
          (";ACTION:".data.length)) := by
        rw [esp]
        exact List.mem_cons_of_mem _ hpiece
      exact hm (hsub '-' (mem_of_mem_splitCharList ';' _ piece h2 '-' h1))
    exact parseFields_nonneg typ _ hkv a h

/-- C9 witness: the amended statement at a concrete accepted line without a
minus sign. -/
theorem import_nonneg_witness :
    0 ≤ ({ type := .CLICK, name := "A", x := 1, y := 2 } : Action).x ∧
    0 ≤ ({ type := .CLICK, name := "A", x := 1, y := 2 } : Action).y ∧
    0 ≤ ({ type := .CLICK, name := "A", x := 1, y := 2 } : Action).ms :=
  import_nonneg_amended ";ACTION:Click;Name=A;X=1;Y=2"
    { type := .CLICK, name := "A", x := 1, y := 2 } (by decide) (by decide)

end AhkGen

namespace AhkGen

/-! ## C8 — end-to-end export/import example -/

/-- The example project's actions: Click "Start" at (100, 200), then Sleep
500 ms. -/
def demoActions : List Action :=
  [{ type := .CLICK, name := "Start", x := 100, y := 200 },
   { type := .SLEEP, name := "Sleep", ms := 500 }]

/-- C8: exporting the Demo project yields exactly the documented lines —
the hotkey block is the Click comment line, `MouseMove, 100, 200`, `Click`,
the Sleep comment line, `Sleep, 500`, then `return`, with command lines
indented four spaces and comment lines unindented — and importing the
exported text recovers the same two Actions in order. -/
theorem end_to_end_demo (ex : String → Bool) :
    exportLines ex "Demo" "^!z" demoActions =
      ["; Generated by AHK Script Builder - Demo",
       "; Keep the ACTION comments if you want to reload this script into the builder.",
       "CoordMode, Mouse, Screen",
       "SetTitleMatchMode, 2",
       "",
       "; Hotkey to run the sequence: ^!z",
       "^!z::",
       ";ACTION:Click;Name=Start;X=100;Y=200",
       "    MouseMove, 100, 200",
       "    Click",
       ";ACTION:Sleep;Name=Sleep;MS=500",
       "    Sleep, 500",
       "return"] ∧
    importScript (exportContent ex "Demo" "^!z" demoActions) = demoActions := by
  have h1 : exportLines ex "Demo" "^!z" demoActions =
      ["; Generated by AHK Script Builder - Demo",
       "; Keep the ACTION comments if you want to reload this script into the builder.",
       "CoordMode, Mouse, Screen",
       "SetTitleMatchMode, 2",
       "",
       "; Hotkey to run the sequence: ^!z",
       "^!z::",
       ";ACTION:Click;Name=Start;X=100;Y=200",
       "    MouseMove, 100, 200",
       "    Click",
       ";ACTION:Sleep;Name=Sleep;MS=500",
       "    Sleep, 500",
       "return"] := rfl
  refine ⟨h1, ?_⟩
  unfold exportContent
  rw [h1]
  decide

end AhkGen
